import Mathlib

/-!
Verification development for the tf2avm repository.

This file gives a shallow embedding in Lean 4 of the deterministic parts of
the tf2avm pipeline: the provider version-constraint consolidator, the
TTL-based knowledge cache (`src/services/avm_service.py`), the per-resource
planning loop with its fallback (`src/agents/converter_planning_agent_per_resource.py`),
the orchestrator's mapping/review/planning phases and CLI exit behaviour
(`src/main.py`), and the terraform validation wrapper
(`src/services/terraform_service.py`).  Theorems about these definitions
settle the specification's claims.
-/

set_option maxRecDepth 4000

namespace Tf2Avm

/-! ## Character-list utilities

Small, kernel-friendly string helpers, operating on `List Char`.  They model
the Python string operations (`str.find`, `str.rfind`, slicing, `strip`,
`split`, `startswith`, `replace`) used by the embedded code.
-/

/-- Split a character list at every occurrence of the separator character. -/
def splitOnChar (sep : Char) : List Char → List (List Char)
  | [] => [[]]
  | c :: cs =>
    match splitOnChar sep cs with
    | [] => if c = sep then [[], []] else [[c]]
    | g :: gs => if c = sep then [] :: g :: gs else (c :: g) :: gs

/-- Is the character an ASCII space (the only whitespace used in the inputs)? -/
def isSpaceChar (c : Char) : Bool := c = ' '

/-- Strip leading and trailing spaces, modelling Python `str.strip()`. -/
def trimChars (cs : List Char) : List Char :=
  ((cs.dropWhile isSpaceChar).reverse.dropWhile isSpaceChar).reverse

/-- Parse a nonempty list of decimal digits into a number. -/
def parseNatChars (cs : List Char) : Option Nat :=
  if cs.isEmpty then none
  else cs.foldl (fun acc c =>
    match acc with
    | none => none
    | some n => if c.isDigit then some (n * 10 + (c.toNat - 48)) else none) (some 0)

/-- Does `pre` occur at the head of `cs`? (Python `str.startswith`.) -/
def startsWithChars (pre cs : List Char) : Bool :=
  match pre, cs with
  | [], _ => true
  | _ :: _, [] => false
  | p :: ps, c :: cs => p = c && startsWithChars ps cs

/-- Index of the first occurrence of `c`, if any (Python `str.find`). -/
def findCharIdx (c : Char) : List Char → Option Nat
  | [] => none
  | x :: xs =>
    if x = c then some 0
    else match findCharIdx c xs with
      | some i => some (i + 1)
      | none => none

/-- Index of the first occurrence of `c` at or after position `start`. -/
def findCharIdxFrom (c : Char) (start : Nat) (cs : List Char) : Option Nat :=
  match findCharIdx c (cs.drop start) with
  | some i => some (start + i)
  | none => none

/-- Index of the last occurrence of `c`, if any (Python `str.rfind`). -/
def rfindCharIdx (c : Char) : List Char → Option Nat
  | [] => none
  | x :: xs =>
    match rfindCharIdx c xs with
    | some i => some (i + 1)
    | none => if x = c then some 0 else none

/-- `cs[a:b]` as in Python slicing. -/
def sliceChars (cs : List Char) (a b : Nat) : List Char :=
  (cs.take b).drop a

/-- Replace every occurrence of `old` by `new` (Python `str.replace`). -/
def replaceChar (old new : Char) (cs : List Char) : List Char :=
  cs.map fun c => if c = old then new else c

/-- Does the pattern occur as a contiguous substring of the haystack? -/
def containsSub (pat : List Char) : List Char → Bool
  | [] => pat.isEmpty
  | c :: cs => startsWithChars pat (c :: cs) || containsSub pat cs

/-- Strip the characters ':' and ' ' from both ends (Python `strip(": ")`). -/
def stripColonSpace (cs : List Char) : List Char :=
  let bad := fun c : Char => c = ':' || c = ' '
  ((cs.dropWhile bad).reverse.dropWhile bad).reverse

end Tf2Avm

namespace Tf2Avm

/-! ## Provider constraint consolidator

Modelled from the spec: the provider version-constraint consolidation
algorithm (spec section 4.4) is not implemented as executable code in the
repository — it exists only as natural-language instructions embedded in the
`ConverterAgent` prompt (`src/agents/converter_agent.py`, instruction
section 8.3), executed by the external inference collaborator.  The
definitions below follow the spec's normative algorithm text:

1. normalize each raw string into a closed-open range: `~>X.Y` becomes
   `[X.Y.0, X.(Y+1).0)`, an explicit `>=A,<B` pair is kept, a bare `>=X.Y.Z`
   becomes `[X.Y.Z, +inf)`;
2. group ranges by provider;
3. merged lower bound = maximum of all lower bounds, merged upper bound =
   minimum of all upper bounds, absent bounds unbounded;
4. on an empty intersection (merged lower ≥ merged upper) select the input
   range with the numerically highest lower bound and set the conflict flag;
5. render a clean minor series `[X.Y.0, X.(Y+1).0)` as `~>X.Y`, a pin as
   `=V`, anything else as explicit bounds.
-/

/-- A three-component numeric version. -/
structure SemVer where
  major : Nat
  minor : Nat
  patch : Nat
  deriving Repr, DecidableEq

/-- Strict numeric (lexicographic) order on versions. -/
def verLt (a b : SemVer) : Bool :=
  if a.major < b.major then true
  else if b.major < a.major then false
  else if a.minor < b.minor then true
  else if b.minor < a.minor then false
  else decide (a.patch < b.patch)

/-- Non-strict numeric order on versions. -/
def verLe (a b : SemVer) : Bool := verLt a b || a = b

/-- A closed-open version range; `none` bounds are unbounded. -/
structure VRange where
  low : Option SemVer
  high : Option SemVer
  deriving Repr, DecidableEq

/-- Order on lower bounds, where an absent bound is minus infinity. -/
def lowLe (a b : Option SemVer) : Bool :=
  match a, b with
  | none, _ => true
  | some _, none => false
  | some x, some y => verLe x y

/-- Strict order on lower bounds, absent bound being minus infinity. -/
def lowLt (a b : Option SemVer) : Bool :=
  match a, b with
  | _, none => false
  | none, some _ => true
  | some x, some y => verLt x y

/-- Order on upper bounds, where an absent bound is plus infinity. -/
def highLe (a b : Option SemVer) : Bool :=
  match a, b with
  | _, none => true
  | none, some _ => false
  | some x, some y => verLe x y

/-- Maximum of two lower bounds (absent = unbounded below). -/
def maxLow (a b : Option SemVer) : Option SemVer :=
  match a, b with
  | none, b => b
  | a, none => a
  | some x, some y => if verLt x y then some y else some x

/-- Minimum of two upper bounds (absent = unbounded above). -/
def minHigh (a b : Option SemVer) : Option SemVer :=
  match a, b with
  | none, b => b
  | a, none => a
  | some x, some y => if verLt y x then some y else some x

/-- Parse a dotted numeric version: missing minor/patch components are zero. -/
def parseVersionChars (cs : List Char) : Option SemVer :=
  match splitOnChar '.' (trimChars cs) with
  | [a] => match parseNatChars a with
    | some x => some ⟨x, 0, 0⟩
    | none => none
  | [a, b] => match parseNatChars a, parseNatChars b with
    | some x, some y => some ⟨x, y, 0⟩
    | _, _ => none
  | [a, b, c] => match parseNatChars a, parseNatChars b, parseNatChars c with
    | some x, some y, some z => some ⟨x, y, z⟩
    | _, _, _ => none
  | _ => none

/-- Modelled from the spec: normalize one bound of an explicit constraint
(`>=V` contributes a lower bound, `<V` an upper bound). -/
def applyBound (r : VRange) (cs : List Char) : Option VRange :=
  let cs := trimChars cs
  if startsWithChars ">=".data cs then
    match parseVersionChars (cs.drop 2) with
    | some v => some { r with low := maxLow r.low (some v) }
    | none => none
  else if startsWithChars "<".data cs then
    match parseVersionChars (cs.drop 1) with
    | some v => some { r with high := minHigh r.high (some v) }
    | none => none
  else none

/-- Modelled from the spec: normalize one raw constraint string into a
closed-open range.  `~>X.Y` becomes `[X.Y.0, X.(Y+1).0)`; comma-separated
explicit `>=` / `<` bounds are kept as given, a bare `>=X.Y.Z` having no
upper bound. -/
def normalizeConstraint (s : String) : Option VRange :=
  let cs := trimChars s.data
  if startsWithChars "~>".data cs then
    match splitOnChar '.' (trimChars (cs.drop 2)) with
    | [a, b] =>
      match parseNatChars a, parseNatChars b with
      | some x, some y => some ⟨some ⟨x, y, 0⟩, some ⟨x, y + 1, 0⟩⟩
      | _, _ => none
    | _ => none
  else
    (splitOnChar ',' cs).foldlM applyBound ⟨none, none⟩

/-- Modelled from the spec: intersect a list of normalized ranges — merged
lower bound is the maximum of the lower bounds, merged upper bound the
minimum of the upper bounds, absent bounds treated as unbounded. -/
def mergeRanges (rs : List VRange) : VRange :=
  ⟨rs.foldl (fun acc r => maxLow acc r.low) none,
   rs.foldl (fun acc r => minHigh acc r.high) none⟩

/-- A range is empty when both bounds are present and lower ≥ upper. -/
def rangeIsEmpty (r : VRange) : Bool :=
  match r.low, r.high with
  | some l, some h => !verLt l h
  | _, _ => false

/-- Modelled from the spec: among the input ranges select the one with the
numerically highest lower bound (used to resolve a conflict). -/
def selectHighestLow (r : VRange) (rs : List VRange) : VRange :=
  rs.foldl (fun best x => if lowLt best.low x.low then x else best) r

/-- Render a version as `major.minor.patch`. -/
def renderVer (v : SemVer) : String :=
  Nat.repr v.major ++ "." ++ Nat.repr v.minor ++ "." ++ Nat.repr v.patch

/-- Modelled from the spec: render a merged range — a clean minor series
`[X.Y.0, X.(Y+1).0)` as `~>X.Y`, a pin (`low = high`) as `=V`, otherwise
explicit `>= low, < high` bounds. -/
def renderRange (r : VRange) : String :=
  match r.low, r.high with
  | some l, some h =>
    if l.patch = 0 && h = ⟨l.major, l.minor + 1, 0⟩ then
      "~>" ++ Nat.repr l.major ++ "." ++ Nat.repr l.minor
    else if l = h then "=" ++ renderVer l
    else ">=" ++ renderVer l ++ ", <" ++ renderVer h
  | some l, none => ">=" ++ renderVer l
  | none, some h => "<" ++ renderVer h
  | none, none => ""

/-- Consolidated constraint for one provider (data model `MergedConstraint`). -/
structure MergedConstraint where
  provider : String
  low : Option SemVer
  high : Option SemVer
  conflict : Bool
  rendering : String
  note : String
  deriving Repr, DecidableEq

/-- Modelled from the spec: consolidate all raw constraint strings of one
provider.  Providers whose strings yield no normalized range are not
emitted; an empty intersection is resolved by selecting the range with the
highest lower bound and flagging the conflict. -/
def consolidateProvider (p : String) (raws : List String) : Option MergedConstraint :=
  match raws.filterMap normalizeConstraint with
  | [] => none
  | r :: rs =>
    let merged := mergeRanges (r :: rs)
    if rangeIsEmpty merged then
      let chosen := selectHighestLow r rs
      some ⟨p, chosen.low, chosen.high, true, renderRange chosen,
        "conflict resolved by choosing " ++ p ++ " " ++ renderRange chosen⟩
    else
      some ⟨p, merged.low, merged.high, false, renderRange merged, ""⟩

/-- Modelled from the spec: a `ConstraintSet` groups raw constraint strings
by provider; consolidation produces one `MergedConstraint` per provider that
contributed at least one normalized range. -/
def consolidateSet (cset : List (String × List String)) : List MergedConstraint :=
  cset.filterMap fun pc => consolidateProvider pc.1 pc.2

/-- Parse a raw `provider constraint` line (as in `azurerm >=4.8.0,<5.0.0`)
into a provider name and its constraint string. -/
def parseProviderConstraint (s : String) : Option (String × String) :=
  match findCharIdx ' ' (trimChars s.data) with
  | none => none
  | some i =>
    let cs := trimChars s.data
    some (⟨cs.take i⟩, ⟨trimChars (cs.drop (i + 1))⟩)

/-- Group parsed (provider, constraint) pairs by provider, preserving first
occurrence order. -/
def groupByProvider (ps : List (String × String)) : List (String × List String) :=
  ps.foldl (fun acc pc =>
    if acc.any (fun e => e.1 = pc.1) then
      acc.map fun e => if e.1 = pc.1 then (e.1, e.2 ++ [pc.2]) else e
    else acc ++ [(pc.1, [pc.2])]) []

/-- Modelled from the spec: consolidate a list of raw provider-prefixed
constraint strings end to end (parse, group by provider, consolidate). -/
def consolidateRaw (ss : List String) : List MergedConstraint :=
  consolidateSet (groupByProvider (ss.filterMap parseProviderConstraint))

end Tf2Avm

namespace Tf2Avm

/-! ## Order lemmas for version bounds -/

theorem verLt_iff (a b : SemVer) : verLt a b = true ↔
    a.major < b.major ∨ (a.major = b.major ∧
      (a.minor < b.minor ∨ (a.minor = b.minor ∧ a.patch < b.patch))) := by
  unfold verLt
  repeat' split
  all_goals simp_all
  all_goals omega

theorem verEq_iff (a b : SemVer) : a = b ↔
    a.major = b.major ∧ a.minor = b.minor ∧ a.patch = b.patch := by
  cases a; cases b; simp [SemVer.mk.injEq]

theorem verLe_iff (a b : SemVer) : verLe a b = true ↔
    a.major < b.major ∨ (a.major = b.major ∧
      (a.minor < b.minor ∨ (a.minor = b.minor ∧ a.patch ≤ b.patch))) := by
  unfold verLe
  rw [Bool.or_eq_true, verLt_iff, decide_eq_true_eq, verEq_iff]
  omega

theorem lowLe_refl (a : Option SemVer) : lowLe a a = true := by
  cases a with
  | none => rfl
  | some x => simp [lowLe, verLe_iff]

theorem lowLe_trans {a b c : Option SemVer} (h1 : lowLe a b = true)
    (h2 : lowLe b c = true) : lowLe a c = true := by
  cases a <;> cases b <;> cases c <;> simp_all [lowLe, verLe_iff] <;> omega

theorem verLt_true_le {x y : SemVer} (h : verLt x y = true) : verLe x y = true := by
  rw [verLe, h, Bool.true_or]

theorem verLt_false_le {x y : SemVer} (h : verLt x y = false) : verLe y x = true := by
  have h2 : ¬(verLt x y = true) := by rw [h]; exact Bool.false_ne_true
  rw [verLt_iff] at h2
  rw [verLe_iff]
  omega

theorem lowLe_maxLow_left (a b : Option SemVer) : lowLe a (maxLow a b) = true := by
  cases a with
  | none => rfl
  | some x =>
    cases b with
    | none => exact lowLe_refl (some x)
    | some y =>
      simp only [maxLow]
      by_cases h : verLt x y = true
      · rw [if_pos h]
        show verLe x y = true
        exact verLt_true_le h
      · rw [if_neg h]
        exact lowLe_refl (some x)

theorem lowLe_maxLow_right (a b : Option SemVer) : lowLe b (maxLow a b) = true := by
  cases a with
  | none =>
    cases b with
    | none => rfl
    | some y => exact lowLe_refl (some y)
  | some x =>
    cases b with
    | none => rfl
    | some y =>
      simp only [maxLow]
      by_cases h : verLt x y = true
      · rw [if_pos h]
        exact lowLe_refl (some y)
      · rw [if_neg h]
        show verLe y x = true
        exact verLt_false_le (Bool.not_eq_true _ ▸ h)

theorem maxLow_eq_or (a b : Option SemVer) : maxLow a b = a ∨ maxLow a b = b := by
  cases a with
  | none => right; cases b <;> rfl
  | some x =>
    cases b with
    | none => left; rfl
    | some y =>
      simp only [maxLow]
      by_cases h : verLt x y = true
      · right; rw [if_pos h]
      · left; rw [if_neg h]

theorem lowLt_true_le {a b : Option SemVer} (h : lowLt a b = true) :
    lowLe a b = true := by
  cases a with
  | none => rfl
  | some x =>
    cases b with
    | none => exact absurd h (by rw [lowLt]; exact Bool.false_ne_true)
    | some y => exact verLt_true_le h

theorem lowLt_false_le {a b : Option SemVer} (h : lowLt a b = false) :
    lowLe b a = true := by
  cases a with
  | none =>
    cases b with
    | none => rfl
    | some y => exact absurd h (by simp [lowLt])
  | some x =>
    cases b with
    | none => rfl
    | some y => exact verLt_false_le h

theorem highLe_refl (a : Option SemVer) : highLe a a = true := by
  cases a with
  | none => rfl
  | some x => simp [highLe, verLe_iff]

theorem highLe_trans {a b c : Option SemVer} (h1 : highLe a b = true)
    (h2 : highLe b c = true) : highLe a c = true := by
  cases a <;> cases b <;> cases c <;> simp_all [highLe, verLe_iff] <;> omega

theorem highLe_minHigh_left (a b : Option SemVer) : highLe (minHigh a b) a = true := by
  cases a with
  | none => cases b <;> rfl
  | some x =>
    cases b with
    | none => exact highLe_refl (some x)
    | some y =>
      simp only [minHigh]
      by_cases h : verLt y x = true
      · rw [if_pos h]
        show verLe y x = true
        exact verLt_true_le h
      · rw [if_neg h]
        exact highLe_refl (some x)

theorem highLe_minHigh_right (a b : Option SemVer) : highLe (minHigh a b) b = true := by
  cases a with
  | none =>
    cases b with
    | none => rfl
    | some y => exact highLe_refl (some y)
  | some x =>
    cases b with
    | none => rfl
    | some y =>
      simp only [minHigh]
      by_cases h : verLt y x = true
      · rw [if_pos h]
        exact highLe_refl (some y)
      · rw [if_neg h]
        show verLe x y = true
        exact verLt_false_le (Bool.not_eq_true _ ▸ h)

theorem minHigh_eq_or (a b : Option SemVer) : minHigh a b = a ∨ minHigh a b = b := by
  cases a with
  | none => right; cases b <;> rfl
  | some x =>
    cases b with
    | none => left; rfl
    | some y =>
      simp only [minHigh]
      by_cases h : verLt y x = true
      · right; rw [if_pos h]
      · left; rw [if_neg h]

/-! ## Fold lemmas about the merge -/

theorem lowLe_foldl_maxLow (rs : List VRange) :
    ∀ acc : Option SemVer, lowLe acc (rs.foldl (fun a r => maxLow a r.low) acc) = true := by
  induction rs with
  | nil => intro acc; exact lowLe_refl acc
  | cons r rs ih =>
    intro acc
    exact lowLe_trans (lowLe_maxLow_left acc r.low) (ih (maxLow acc r.low))

theorem mem_lowLe_foldl_maxLow (rs : List VRange) :
    ∀ (acc : Option SemVer) (r : VRange), r ∈ rs →
      lowLe r.low (rs.foldl (fun a x => maxLow a x.low) acc) = true := by
  induction rs with
  | nil => intro _ r h; cases h
  | cons x rs ih =>
    intro acc r h
    rcases List.mem_cons.mp h with h | h
    · subst h
      exact lowLe_trans (lowLe_maxLow_right acc r.low) (lowLe_foldl_maxLow rs _)
    · exact ih (maxLow acc x.low) r h

theorem foldl_maxLow_attained (rs : List VRange) :
    ∀ acc : Option SemVer,
      rs.foldl (fun a x => maxLow a x.low) acc = acc ∨
      ∃ r ∈ rs, rs.foldl (fun a x => maxLow a x.low) acc = r.low := by
  induction rs with
  | nil => intro acc; left; rfl
  | cons x rs ih =>
    intro acc
    rcases ih (maxLow acc x.low) with h | ⟨r, hr, h⟩
    · rcases maxLow_eq_or acc x.low with h2 | h2
      · left; rw [List.foldl_cons, h, h2]
      · right; exact ⟨x, List.mem_cons_self x rs, by rw [List.foldl_cons, h, h2]⟩
    · right; exact ⟨r, List.mem_cons_of_mem x hr, by rw [List.foldl_cons, h]⟩

theorem highLe_foldl_minHigh (rs : List VRange) :
    ∀ acc : Option SemVer, highLe (rs.foldl (fun a r => minHigh a r.high) acc) acc = true := by
  induction rs with
  | nil => intro acc; exact highLe_refl acc
  | cons r rs ih =>
    intro acc
    exact highLe_trans (ih (minHigh acc r.high)) (highLe_minHigh_left acc r.high)

theorem foldl_minHigh_mem_le (rs : List VRange) :
    ∀ (acc : Option SemVer) (r : VRange), r ∈ rs →
      highLe (rs.foldl (fun a x => minHigh a x.high) acc) r.high = true := by
  induction rs with
  | nil => intro _ r h; cases h
  | cons x rs ih =>
    intro acc r h
    rcases List.mem_cons.mp h with h | h
    · subst h
      exact highLe_trans (highLe_foldl_minHigh rs _) (highLe_minHigh_right acc r.high)
    · exact ih (minHigh acc x.high) r h

theorem foldl_minHigh_attained (rs : List VRange) :
    ∀ acc : Option SemVer,
      rs.foldl (fun a x => minHigh a x.high) acc = acc ∨
      ∃ r ∈ rs, rs.foldl (fun a x => minHigh a x.high) acc = r.high := by
  induction rs with
  | nil => intro acc; left; rfl
  | cons x rs ih =>
    intro acc
    rcases ih (minHigh acc x.high) with h | ⟨r, hr, h⟩
    · rcases minHigh_eq_or acc x.high with h2 | h2
      · left; rw [List.foldl_cons, h, h2]
      · right; exact ⟨x, List.mem_cons_self x rs, by rw [List.foldl_cons, h, h2]⟩
    · right; exact ⟨r, List.mem_cons_of_mem x hr, by rw [List.foldl_cons, h]⟩

/-! ## Argmax lemmas for conflict resolution -/

theorem selectHighestLow_mem (rs : List VRange) :
    ∀ r : VRange, selectHighestLow r rs ∈ r :: rs := by
  induction rs with
  | nil => intro r; exact List.mem_singleton.mpr rfl
  | cons x rs ih =>
    intro r
    unfold selectHighestLow
    rw [List.foldl_cons]
    by_cases h : lowLt r.low x.low = true
    · rw [if_pos h]
      have hx := ih x
      simp only [selectHighestLow] at hx
      rcases List.mem_cons.mp hx with h2 | h2
      · exact List.mem_cons_of_mem r (List.mem_cons.mpr (Or.inl h2))
      · exact List.mem_cons_of_mem r (List.mem_cons.mpr (Or.inr h2))
    · rw [if_neg h]
      have hr := ih r
      simp only [selectHighestLow] at hr
      rcases List.mem_cons.mp hr with h2 | h2
      · exact List.mem_cons.mpr (Or.inl h2)
      · exact List.mem_cons_of_mem r (List.mem_cons.mpr (Or.inr h2))

theorem selectHighestLow_ge (rs : List VRange) :
    ∀ r : VRange, lowLe r.low (selectHighestLow r rs).low = true ∧
      ∀ x ∈ rs, lowLe x.low (selectHighestLow r rs).low = true := by
  induction rs with
  | nil => intro r; exact ⟨lowLe_refl r.low, by intro x h; cases h⟩
  | cons y rs ih =>
    intro r
    unfold selectHighestLow
    rw [List.foldl_cons]
    by_cases h : lowLt r.low y.low = true
    · rw [if_pos h]
      have hy := ih y
      simp only [selectHighestLow] at hy
      refine ⟨lowLe_trans (lowLt_true_le h) hy.1, ?_⟩
      intro x hx
      rcases List.mem_cons.mp hx with h2 | h2
      · subst h2; exact hy.1
      · exact hy.2 x h2
    · rw [if_neg h]
      have hr := ih r
      simp only [selectHighestLow] at hr
      refine ⟨hr.1, ?_⟩
      intro x hx
      rcases List.mem_cons.mp hx with h2 | h2
      · subst h2
        exact lowLe_trans (lowLt_false_le (Bool.not_eq_true _ ▸ h)) hr.1
      · exact hr.2 x h2

end Tf2Avm

namespace Tf2Avm

theorem maxLow_none_left (b : Option SemVer) : maxLow none b = b := by
  cases b <;> rfl

theorem minHigh_none_left (b : Option SemVer) : minHigh none b = b := by
  cases b <;> rfl

theorem maxLow_idem (a : Option SemVer) : maxLow a a = a := by
  cases a with
  | none => rfl
  | some x =>
    simp only [maxLow]
    split <;> rfl

theorem minHigh_idem (a : Option SemVer) : minHigh a a = a := by
  cases a with
  | none => rfl
  | some x =>
    simp only [minHigh]
    split <;> rfl

/-- A provider's constraint list with one constraint repeated consolidates
like the singleton list. -/
theorem consolidateProvider_dup (p c : String) :
    consolidateProvider p [c, c] = consolidateProvider p [c] := by
  unfold consolidateProvider
  cases hn : normalizeConstraint c with
  | none => simp [List.filterMap_cons, hn, List.filterMap_nil]
  | some r =>
    simp only [List.filterMap_cons, hn, List.filterMap_nil]
    have hm : mergeRanges [r, r] = mergeRanges [r] := by
      simp only [mergeRanges, List.foldl]
      rw [maxLow_none_left, minHigh_none_left, maxLow_idem, minHigh_idem]
    have hs : selectHighestLow r [r] = r := by
      simp only [selectHighestLow, List.foldl]
      split <;> rfl
    have hs0 : selectHighestLow r [] = r := rfl
    simp only [hm, hs, hs0]

/-- `claim C1` — Modelled from the spec (the consolidation algorithm exists
only as prompt text in `src/agents/converter_agent.py`): the consolidator
intersects all normalized ranges of a provider, the merged lower bound being
the maximum of the lower bounds and the merged upper bound the minimum of
the upper bounds (absent bounds unbounded); consolidating azurerm
`[">=4.8.0,<5.0.0", ">=4.19.0,<5.0.0"]` yields `>=4.19.0, <5.0.0` and
random `["~>3.5", "~>3.6"]` yields a merged range rendered `~>3.6` (under
the spec's literal `~>X.Y ↦ [X.Y.0, X.(Y+1).0)` normalization the random
pair is additionally flagged as a conflict). -/
theorem claim_C1_consolidator_intersection :
    (∀ rs : List VRange,
      (rs.all fun r => lowLe r.low (mergeRanges rs).low) = true ∧
      (rs.all fun r => highLe (mergeRanges rs).high r.high) = true ∧
      ((mergeRanges rs).low = none ∨ (rs.any fun r => r.low = (mergeRanges rs).low) = true) ∧
      ((mergeRanges rs).high = none ∨ (rs.any fun r => r.high = (mergeRanges rs).high) = true)) ∧
    consolidateProvider "azurerm" [">=4.8.0,<5.0.0", ">=4.19.0,<5.0.0"] =
      some ⟨"azurerm", some ⟨4, 19, 0⟩, some ⟨5, 0, 0⟩, false, ">=4.19.0, <5.0.0", ""⟩ ∧
    consolidateProvider "random" ["~>3.5", "~>3.6"] =
      some ⟨"random", some ⟨3, 6, 0⟩, some ⟨3, 7, 0⟩, true, "~>3.6",
        "conflict resolved by choosing random ~>3.6"⟩ := by
  refine ⟨?_, by decide, by decide⟩
  intro rs
  refine ⟨?_, ?_, ?_, ?_⟩
  · rw [List.all_eq_true]
    intro r hr
    exact mem_lowLe_foldl_maxLow rs none r hr
  · rw [List.all_eq_true]
    intro r hr
    exact foldl_minHigh_mem_le rs none r hr
  · rcases foldl_maxLow_attained rs none with h | ⟨r, hr, h⟩
    · left; exact h
    · right
      rw [List.any_eq_true]
      exact ⟨r, hr, by rw [decide_eq_true_eq]; exact h.symm⟩
  · rcases foldl_minHigh_attained rs none with h | ⟨r, hr, h⟩
    · left; exact h
    · right
      rw [List.any_eq_true]
      exact ⟨r, hr, by rw [decide_eq_true_eq]; exact h.symm⟩

/-- `claim C2` — Modelled from the spec: a provider whose normalized ranges
have an empty intersection (merged lower ≥ merged upper) does not fail
consolidation; the result is the input range with the numerically highest
lower bound, with the conflict flag set; `time ["~>0.9", "~>0.12"]` selects
the `~>0.12` range with `conflict = true`. -/
theorem claim_C2_conflict_resolution :
    (∀ (p : String) (raws : List String) (r : VRange) (rs : List VRange),
      raws.filterMap normalizeConstraint = r :: rs →
      rangeIsEmpty (mergeRanges (r :: rs)) = true →
      consolidateProvider p raws =
        some ⟨p, (selectHighestLow r rs).low, (selectHighestLow r rs).high, true,
          renderRange (selectHighestLow r rs),
          "conflict resolved by choosing " ++ p ++ " " ++ renderRange (selectHighestLow r rs)⟩ ∧
      selectHighestLow r rs ∈ r :: rs ∧
      ((r :: rs).all fun x => lowLe x.low (selectHighestLow r rs).low) = true) ∧
    consolidateProvider "time" ["~>0.9", "~>0.12"] =
      some ⟨"time", some ⟨0, 12, 0⟩, some ⟨0, 13, 0⟩, true, "~>0.12",
        "conflict resolved by choosing time ~>0.12"⟩ := by
  refine ⟨?_, by decide⟩
  intro p raws r rs hnorm hempty
  refine ⟨?_, selectHighestLow_mem rs r, ?_⟩
  · unfold consolidateProvider
    rw [hnorm]
    simp only [hempty, if_true]
  · rw [List.all_eq_true]
    intro x hx
    rcases List.mem_cons.mp hx with h | h
    · subst h
      exact (selectHighestLow_ge rs x).1
    · exact (selectHighestLow_ge rs r).2 x h

/-- Witness for `claim C2`: the general conflict-resolution theorem applied
to the concrete `time` input. -/
theorem claim_C2_conflict_resolution_witness :
    consolidateProvider "time" ["~>0.9", "~>0.12"] =
      some ⟨"time", some ⟨0, 12, 0⟩, some ⟨0, 13, 0⟩, true, "~>0.12",
        "conflict resolved by choosing time ~>0.12"⟩ ∧
    selectHighestLow ⟨some ⟨0, 9, 0⟩, some ⟨0, 10, 0⟩⟩ [⟨some ⟨0, 12, 0⟩, some ⟨0, 13, 0⟩⟩] ∈
      [(⟨some ⟨0, 9, 0⟩, some ⟨0, 10, 0⟩⟩ : VRange), ⟨some ⟨0, 12, 0⟩, some ⟨0, 13, 0⟩⟩] := by
  have h := claim_C2_conflict_resolution.1 "time" ["~>0.9", "~>0.12"]
    ⟨some ⟨0, 9, 0⟩, some ⟨0, 10, 0⟩⟩ [⟨some ⟨0, 12, 0⟩, some ⟨0, 13, 0⟩⟩]
    (by decide) (by decide)
  refine ⟨?_, h.2.1⟩
  rw [h.1]
  decide

/-- `claim C3` — Modelled from the spec: consolidation is idempotent with
respect to duplicate inputs; for every provider and raw constraint string,
a repeated identical constraint does not change the `MergedConstraint`, and
in particular the duplicated azurerm input consolidates identically to the
singleton input. -/
theorem claim_C3_duplicate_idempotence :
    (∀ p c : String, consolidateProvider p [c, c] = consolidateProvider p [c]) ∧
    (∀ s : String, consolidateRaw [s, s] = consolidateRaw [s]) ∧
    consolidateRaw ["azurerm >=4.8.0,<5.0.0", "azurerm >=4.8.0,<5.0.0"] =
      consolidateRaw ["azurerm >=4.8.0,<5.0.0"] := by
  refine ⟨consolidateProvider_dup, ?_, by decide⟩
  intro s
  unfold consolidateRaw
  cases hp : parseProviderConstraint s with
  | none => simp [List.filterMap_cons, hp, List.filterMap_nil]
  | some pc =>
    obtain ⟨p, c⟩ := pc
    simp only [List.filterMap_cons, hp, List.filterMap_nil]
    have h1 : groupByProvider [(p, c)] = [(p, [c])] := by
      simp [groupByProvider]
    have h2 : groupByProvider [(p, c), (p, c)] = [(p, [c, c])] := by
      simp [groupByProvider]
    rw [h1, h2]
    simp only [consolidateSet, List.filterMap_cons, List.filterMap_nil]
    rw [consolidateProvider_dup]

end Tf2Avm

namespace Tf2Avm

/-! ## Knowledge cache (`src/services/avm_service.py`)

The cache is a directory of JSON files; freshness is decided from the file's
filesystem modification time (`AVMService._is_cache_valid`).  The payload
type is abstract (`α`); a cache file whose JSON fails to load or whose
content fails schema validation is modelled by `content = none`.
-/

/-- An on-disk cache file: its filesystem modification time and its decoded
payload (`none` models a corrupt or schema-invalid file). -/
structure CacheFile (α : Type) where
  mtime : Nat
  content : Option α
  deriving Repr, DecidableEq

/-- State of an `AVMService` instance: the constructor flags and the cache
directory contents (filename → file). -/
structure AVMServiceState (α : Type) where
  cache_enabled : Bool
  cache_ttl : Nat
  cacheDir : List (String × CacheFile α)
  deriving Repr, DecidableEq

/-- Look a cache file up by name in the cache directory. -/
def lookupFile {α : Type} : List (String × CacheFile α) → String → Option (CacheFile α)
  | [], _ => none
  | e :: es, k => if e.1 = k then some e.2 else lookupFile es k

/-- `AVMService.__init__` with default arguments: caching enabled and
`cache_ttl = 3000000` seconds — although its docstring says the default is
24 hours. -/
def avmServiceInit (α : Type) (dir : List (String × CacheFile α)) : AVMServiceState α :=
  ⟨true, 3000000, dir⟩

/-- `AVMService._is_cache_valid`: the file exists and
`now < mtime + cache_ttl` (strict comparison against the expiry time). -/
def isCacheValid {α : Type} (st : AVMServiceState α) (file : String) (now : Nat) : Bool :=
  match lookupFile st.cacheDir file with
  | none => false
  | some f => decide (now < f.mtime + st.cache_ttl)

/-- `AVMService._get_module_cache_filename`: module name, underscore, the
version with dots replaced by dashes, and the `.json` suffix. -/
def getModuleCacheFilename (module_name module_version : String) : String :=
  module_name ++ "_" ++ (⟨replaceChar '.' '-' module_version.data⟩ : String) ++ ".json"

/-- `AVMService._save_cache`: write the payload under the filename,
overwriting an existing entry; the file's modification time becomes `now`. -/
def saveCache {α : Type} : List (String × CacheFile α) → String → Nat → α →
    List (String × CacheFile α)
  | [], file, now, payload => [(file, ⟨now, some payload⟩)]
  | e :: es, file, now, payload =>
    if e.1 = file then (file, ⟨now, some payload⟩) :: es
    else e :: saveCache es file now payload

/-- Outcome of a fetch: the returned payload, the new service state, and how
many times the external agent fetch was invoked. -/
structure FetchOutcome (α : Type) where
  result : α
  state : AVMServiceState α
  fetchCalls : Nat
  deriving Repr, DecidableEq

/-- `AVMService.fetch_avm_resource_details`: on a valid, loadable and
schema-valid cache file return the cached payload without fetching;
otherwise invoke the external agent once, persist the result when caching
is enabled, and return it.  `fetched` stands for the payload the external
agent would produce. -/
def fetchAvmResourceDetails {α : Type} (st : AVMServiceState α) (now : Nat)
    (module_name module_version : String) (use_cache : Bool) (fetched : α) :
    FetchOutcome α :=
  let cache_file := getModuleCacheFilename module_name module_version
  let hit : Option α :=
    if use_cache && st.cache_enabled && isCacheValid st cache_file now then
      match lookupFile st.cacheDir cache_file with
      | some f => f.content
      | none => none
    else none
  match hit with
  | some payload => ⟨payload, st, 0⟩
  | none =>
    let st2 :=
      if st.cache_enabled then
        { st with cacheDir := saveCache st.cacheDir cache_file now fetched }
      else st
    ⟨fetched, st2, 1⟩

theorem lookupFile_saveCache {α : Type} (dir : List (String × CacheFile α))
    (file : String) (now : Nat) (payload : α) :
    lookupFile (saveCache dir file now payload) file = some ⟨now, some payload⟩ := by
  induction dir with
  | nil => simp [saveCache, lookupFile]
  | cons e es ih =>
    by_cases h : e.1 = file
    · simp [saveCache, h, lookupFile]
    · simp [saveCache, h, lookupFile, ih]

end Tf2Avm

namespace Tf2Avm

/-- `claim C4` — for every cache key: with caching enabled, a persisted
entry whose payload loads and validates and whose age is strictly below the
TTL is returned unchanged without invoking the fetch agent; otherwise (stale
entry, or no entry) the fetch agent is invoked exactly once, its result is
persisted under the key (overwriting any stale entry), and returned. -/
theorem claim_C4_cache_get_or_fetch {α : Type} (st : AVMServiceState α) (now : Nat)
    (name version : String) (fetched : α) (henabled : st.cache_enabled = true) :
    (∀ (f : CacheFile α) (payload : α),
      lookupFile st.cacheDir (getModuleCacheFilename name version) = some f →
      f.content = some payload →
      f.mtime ≤ now →
      ((now - f.mtime < st.cache_ttl →
          fetchAvmResourceDetails st now name version true fetched = ⟨payload, st, 0⟩) ∧
        (st.cache_ttl ≤ now - f.mtime →
          fetchAvmResourceDetails st now name version true fetched =
            ⟨fetched,
              { st with cacheDir :=
                  saveCache st.cacheDir (getModuleCacheFilename name version) now fetched },
              1⟩ ∧
          lookupFile (fetchAvmResourceDetails st now name version true fetched).state.cacheDir
              (getModuleCacheFilename name version) = some ⟨now, some fetched⟩))) ∧
    (lookupFile st.cacheDir (getModuleCacheFilename name version) = none →
      fetchAvmResourceDetails st now name version true fetched =
        ⟨fetched,
          { st with cacheDir :=
              saveCache st.cacheDir (getModuleCacheFilename name version) now fetched },
          1⟩ ∧
      lookupFile (fetchAvmResourceDetails st now name version true fetched).state.cacheDir
          (getModuleCacheFilename name version) = some ⟨now, some fetched⟩) := by
  constructor
  · intro f payload hlk hcont hmt
    constructor
    · intro hfresh
      have hv : isCacheValid st (getModuleCacheFilename name version) now = true := by
        unfold isCacheValid
        rw [hlk]
        rw [decide_eq_true_eq]
        omega
      unfold fetchAvmResourceDetails
      simp only [henabled, hv, Bool.and_true, Bool.and_self, if_true, hlk, hcont]
    · intro hstale
      have hv : isCacheValid st (getModuleCacheFilename name version) now = false := by
        unfold isCacheValid
        rw [hlk]
        rw [decide_eq_false_iff_not]
        omega
      unfold fetchAvmResourceDetails
      simp only [henabled, hv, Bool.and_false, Bool.and_true, if_false, if_true]
      exact ⟨rfl, lookupFile_saveCache st.cacheDir _ now fetched⟩
  · intro hlk
    have hv : isCacheValid st (getModuleCacheFilename name version) now = false := by
      unfold isCacheValid
      rw [hlk]
    unfold fetchAvmResourceDetails
    simp only [henabled, hv, Bool.and_false, Bool.and_true, if_false, if_true]
    exact ⟨rfl, lookupFile_saveCache st.cacheDir _ now fetched⟩

/-- Witness for `claim C4`: a concrete fresh hit returns the cached payload
without fetching, and a concrete stale read fetches once and overwrites. -/
theorem claim_C4_cache_get_or_fetch_witness :
    fetchAvmResourceDetails
        (⟨true, 100, [("mod_1-0-0.json", ⟨50, some "cachedPayload"⟩)]⟩ : AVMServiceState String)
        60 "mod" "1.0.0" true "fetchedPayload" =
      ⟨"cachedPayload", ⟨true, 100, [("mod_1-0-0.json", ⟨50, some "cachedPayload"⟩)]⟩, 0⟩ ∧
    fetchAvmResourceDetails
        (⟨true, 100, [("mod_1-0-0.json", ⟨50, some "cachedPayload"⟩)]⟩ : AVMServiceState String)
        200 "mod" "1.0.0" true "fetchedPayload" =
      ⟨"fetchedPayload", ⟨true, 100, [("mod_1-0-0.json", ⟨200, some "fetchedPayload"⟩)]⟩, 1⟩ := by
  have h1 := (claim_C4_cache_get_or_fetch
    (⟨true, 100, [("mod_1-0-0.json", ⟨50, some "cachedPayload"⟩)]⟩ : AVMServiceState String)
    60 "mod" "1.0.0" "fetchedPayload" rfl).1 ⟨50, some "cachedPayload"⟩ "cachedPayload"
    (by decide) rfl (by decide)
  have h2 := (claim_C4_cache_get_or_fetch
    (⟨true, 100, [("mod_1-0-0.json", ⟨50, some "cachedPayload"⟩)]⟩ : AVMServiceState String)
    200 "mod" "1.0.0" "fetchedPayload" rfl).1 ⟨50, some "cachedPayload"⟩ "cachedPayload"
    (by decide) rfl (by decide)
  refine ⟨?_, ?_⟩
  · have := h1.1 (by decide)
    rw [this]
  · have := (h2.2 (by decide)).1
    rw [this]
    decide

/-- `claim C9` — with default constructor arguments the cache TTL is
3,000,000 seconds (between 34 and 35 days), not the 24 hours claimed by the
constructor docstring, and freshness is decided from the cache file's
filesystem modification time. -/
theorem claim_C9_default_cache_ttl :
    (∀ (α : Type) (dir : List (String × CacheFile α)),
      (avmServiceInit α dir).cache_ttl = 3000000 ∧
      (avmServiceInit α dir).cache_enabled = true) ∧
    (3000000 : Nat) ≠ 24 * 60 * 60 ∧
    34 * 86400 < 3000000 ∧ (3000000 : Nat) < 35 * 86400 ∧
    (∀ (α : Type) (dir : List (String × CacheFile α)) (file : String) (now : Nat),
      isCacheValid (avmServiceInit α dir) file now = true ↔
        ∃ f, lookupFile dir file = some f ∧ now < f.mtime + 3000000) := by
  refine ⟨fun α dir => ⟨rfl, rfl⟩, by decide, by decide, by decide, ?_⟩
  intro α dir file now
  unfold isCacheValid avmServiceInit
  cases h : lookupFile dir file with
  | none => simp [h]
  | some f => simp [h]

end Tf2Avm

namespace Tf2Avm

/-! ## Data model (`src/schemas/models.py`)

Only the fields read by the embedded control logic are modelled; prose
metadata fields (descriptions, reasons, display names) that no branch
inspects are elided. -/

/-- `TerraformResource`: a declared resource (type, name, file). -/
structure TerraformResource where
  type : String
  name : String
  file_path : String
  deriving Repr, DecidableEq

/-- `AVMModule`: the catalog module reference carried by a mapping. -/
structure AVMModuleRef where
  name : String
  version : String
  deriving Repr, DecidableEq

/-- `ResourceMapping`: decision linking a resource to at most one module. -/
structure ResourceMapping where
  source_file : String
  source_resource : TerraformResource
  target_module : Option AVMModuleRef
  confidence_score : String
  deriving Repr, DecidableEq

/-- `TerraformResourceWithRelations` as consumed by the planning loop: the
resource key plus the outputs referencing it (abstracted as strings). -/
structure TerraformResourceMeta where
  type : String
  name : String
  file_path : String
  referenced_outputs : Option (List String)
  deriving Repr, DecidableEq

/-- `AVMResourceDetailsAgentResult`: wraps the detailed module record; the
loop only consults the module's name and version. -/
structure ModuleDetailResult where
  module : AVMModuleRef
  deriving Repr, DecidableEq

/-! ## Per-resource planning agent
(`src/agents/converter_planning_agent_per_resource.py`) -/

/-- The `ResourceConversionPlan` record as constructed by
`ResourceConverterPlanningAgent` (the class is referenced by the agent but
absent from `schemas/models.py`; its fields are those the agent passes).
List-valued fields are abstracted as string lists. -/
structure ResourceConversionPlan where
  resource_type : String
  resource_name : String
  source_file : String
  target_avm_module : String
  target_avm_version : String
  avm_resource_name : String
  transformation_action : String
  attribute_mappings : List String
  existing_variables_reused : List String
  new_variables_required : List String
  output_mappings : List String
  required_providers : List String
  risk_level : String
  risk_notes : String
  deriving Repr, DecidableEq

/-- `ResourceConverterPlanningAgentResult` for one resource. -/
structure PlanningAgentResult where
  conversion_plan : ResourceConversionPlan
  markdown_plan : String
  planning_summary : String
  warnings : List String
  deriving Repr, DecidableEq

/-- Successful decode of the JSON block of a planner response: the
`json.loads` call plus the `ResourceConversionPlan(**...)` construction.
`planning_summary` and `warnings` are `none` when the corresponding keys are
absent (Python `dict.get` defaults). -/
structure ParsedResponse where
  conversion_plan : ResourceConversionPlan
  planning_summary : Option String
  warnings : Option (List String)

/-- `ResourceConverterPlanningAgent._create_fallback_result`: the synthesized
plan returned when the response cannot be parsed. -/
def createFallbackResult (resource_mapping : ResourceMapping)
    (filename response_text : String) : PlanningAgentResult :=
  { conversion_plan :=
      { resource_type := resource_mapping.source_resource.type
        resource_name := resource_mapping.source_resource.name
        source_file := filename
        target_avm_module :=
          match resource_mapping.target_module with
          | some m => m.name
          | none => "unknown"
        target_avm_version :=
          match resource_mapping.target_module with
          | some m => m.version
          | none => "unknown"
        avm_resource_name := resource_mapping.source_resource.name ++ "_avm"
        transformation_action := "convert_to_module"
        attribute_mappings := []
        existing_variables_reused := []
        new_variables_required := []
        output_mappings := []
        required_providers := []
        risk_level := "High"
        risk_notes := "Fallback result due to parsing error - manual review required" }
    markdown_plan := response_text
    planning_summary := "Fallback result created due to response parsing error"
    warnings := ["Failed to parse structured output from agent - using fallback"] }

/-- Python `str.strip()` over all whitespace. -/
def pythonStrip (cs : List Char) : List Char :=
  ((cs.dropWhile Char.isWhitespace).reverse.dropWhile Char.isWhitespace).reverse

/-- `ResourceConverterPlanningAgent.create_conversion_plan`, response-parsing
part: locate the outermost brace-delimited slice, decode it via `parse` (the
`json.loads` + schema construction, an external library call), extract the
trailing markdown, and fall back to the synthesized result on any failure. -/
def createConversionPlan (parse : String → Option ParsedResponse)
    (resource_mapping : ResourceMapping) (filename response_text : String) :
    PlanningAgentResult :=
  let cs := response_text.data
  let json_end : Nat :=
    match rfindCharIdx '\x7d' cs with
    | some i => i + 1
    | none => 0
  match findCharIdx '\x7b' cs with
  | some json_start =>
    if json_start < json_end then
      match parse ⟨sliceChars cs json_start json_end⟩ with
      | some pd =>
        let markdown_plan : String :=
          match findCharIdxFrom '#' json_end cs with
          | none => "# Conversion Plan\n\nSee structured output for details."
          | some markdown_start => ⟨pythonStrip (cs.drop markdown_start)⟩
        { conversion_plan := pd.conversion_plan
          markdown_plan := markdown_plan
          planning_summary := pd.planning_summary.getD "Conversion plan created"
          warnings := pd.warnings.getD [] }
      | none => createFallbackResult resource_mapping filename response_text
    else createFallbackResult resource_mapping filename response_text
  | none => createFallbackResult resource_mapping filename response_text

/-- The condition under which `create_conversion_plan` cannot use the
response: no brace-delimited JSON slice, or the slice fails to decode or
validate. -/
def planningResponseFails (parse : String → Option ParsedResponse)
    (response_text : String) : Bool :=
  let cs := response_text.data
  let json_end : Nat :=
    match rfindCharIdx '\x7d' cs with
    | some i => i + 1
    | none => 0
  match findCharIdx '\x7b' cs with
  | some json_start =>
    if json_start < json_end then
      (parse ⟨sliceChars cs json_start json_end⟩).isNone
    else true
  | none => true

end Tf2Avm

namespace Tf2Avm

/-! ## Orchestrator (`src/main.py`) -/

/-- Mappings whose `target_module` is non-null (`valid_mappings` in
`_run_sequential_workflow`). -/
def validMappings (ms : List ResourceMapping) : List ResourceMapping :=
  ms.filter fun m => m.target_module.isSome

/-- Observable workflow events of the mapping phase. -/
inductive WfEvent where
  | detailEnrichment
  | mappingReview
  deriving Repr, DecidableEq

/-- Trace of the mapping / detail-enrichment / review segment of
`_run_sequential_workflow` (steps 4 and 4.1). -/
structure MappingPhaseTrace where
  finalMappings : List ResourceMapping
  reviewInvocations : Nat
  events : List WfEvent
  deriving Repr, DecidableEq

/-- `_run_sequential_workflow`, steps 4 and 4.1: enrich details for all
mapped resources, invoke `review_mappings` (the external collaborator,
abstracted as `review`) once when some resources have no mapping, then
enrich details again over the (possibly replaced) mapping set. -/
def mappingPhase (review : List ResourceMapping → List ResourceMapping)
    (ms : List ResourceMapping) : MappingPhaseTrace :=
  let needReview := (validMappings ms).length < ms.length
  let ms2 := if needReview then review ms else ms
  { finalMappings := ms2
    reviewInvocations := if needReview then 1 else 0
    events := [WfEvent.detailEnrichment]
      ++ (if needReview then [WfEvent.mappingReview] else [])
      ++ [WfEvent.detailEnrichment] }

/-- One record of the planning loop's accumulator (`resources_planings`):
the four skip messages or a planner result. -/
inductive PlanRecord where
  | skippedNoMapping (rtype rname : String)
  | skippedNoDetail (rtype rname : String)
  | skippedNoFile (rtype rname : String)
  | skippedNoMetadata (rtype rname : String)
  | planned (result : PlanningAgentResult)
  deriving Repr, DecidableEq

/-- The substring `resource "<type>" "<name>"` used to locate a resource's
source file. -/
def resourceNeedle (rtype rname : String) : List Char :=
  ("resource \"" ++ rtype ++ "\" \"" ++ rname ++ "\"").data

/-- `_run_sequential_workflow`, step 5: the per-resource planning loop.
Every mapping produces exactly one record: a skip message when the mapping,
module detail, source file, or metadata lookup fails, else the planner
result.  `parse` stands for the JSON decode of the planner response and
`respond` for the external planner collaborator. -/
def planningLoop (parse : String → Option ParsedResponse)
    (respond : ResourceMapping → ModuleDetailResult → String × String → List String → String)
    (tf_files : List (String × String))
    (metas : List TerraformResourceMeta)
    (modules_details : List ModuleDetailResult)
    (ms : List ResourceMapping) : List PlanRecord :=
  ms.map fun m =>
    match m.target_module with
    | none => PlanRecord.skippedNoMapping m.source_resource.type m.source_resource.name
    | some tm =>
      match modules_details.find? (fun d =>
          d.module.name == tm.name && d.module.version == tm.version) with
      | none => PlanRecord.skippedNoDetail m.source_resource.type m.source_resource.name
      | some detail =>
        match tf_files.find? (fun kv =>
            containsSub (resourceNeedle m.source_resource.type m.source_resource.name)
              kv.2.data) with
        | none => PlanRecord.skippedNoFile m.source_resource.type m.source_resource.name
        | some tf_file =>
          match metas.find? (fun md =>
              md.type == m.source_resource.type && md.name == m.source_resource.name) with
          | none => PlanRecord.skippedNoMetadata m.source_resource.type m.source_resource.name
          | some md =>
            PlanRecord.planned (createConversionPlan parse m tf_file.1
              (respond m detail tf_file (md.referenced_outputs.getD [])))

/-- A record counted as skipped-with-reason. -/
def PlanRecord.isSkipped : PlanRecord → Bool
  | .planned _ => false
  | _ => true

/-- A planned record whose transformation action requests manual review. -/
def PlanRecord.isManualReview : PlanRecord → Bool
  | .planned r => r.conversion_plan.transformation_action == "manual_review"
  | _ => false

/-- A planned record counted as converted (not flagged for manual review). -/
def PlanRecord.isConverted : PlanRecord → Bool
  | .planned r => !(r.conversion_plan.transformation_action == "manual_review")
  | _ => false

/-! ## CLI surface (`main` and `convert_repository` in `src/main.py`) -/

/-- Behaviour of `_run_sequential_workflow` beyond the path checks, as the
exception seam: it returns a summary, terminates the process via the bare
`exit()` call after the converter stage (a `SystemExit` carrying `None`),
or raises an exception. -/
inductive WorkflowOutcome where
  | completes (summary : String)
  | processExit
  | raises (msg : String)
  deriving Repr, DecidableEq

/-- The dictionary returned by `convert_repository`. -/
structure RunStatus where
  status : String
  error : Option String
  deriving Repr, DecidableEq

/-- How `convert_repository` terminates: a returned status dictionary, or a
propagating `SystemExit` (not caught by `except Exception`). -/
inductive RunOutcome where
  | returned (st : RunStatus)
  | systemExit
  deriving Repr, DecidableEq

/-- `TerraformAVMOrchestrator.convert_repository`: an invalid repository
path raises `FileNotFoundError`, which the blanket `except Exception`
converts into a returned `failed` status; every other exception from the
workflow is converted likewise; `SystemExit` propagates. -/
def convertRepository (repo_path : String) (repoExists repoIsDir : Bool)
    (wf : WorkflowOutcome) : RunOutcome :=
  if !(repoExists && repoIsDir) then
    RunOutcome.returned ⟨"failed",
      some ("Repository path '" ++ repo_path ++ "' does not exist or is not a directory.")⟩
  else
    match wf with
    | .completes _ => RunOutcome.returned ⟨"completed", none⟩
    | .processExit => RunOutcome.systemExit
    | .raises e => RunOutcome.returned ⟨"failed", some e⟩

/-- Process exit code of the CLI (`main` → `run_conversion`): an exception
from `initialize()` (environment validation) propagates and the process
exits non-zero; otherwise `convert_repository`'s result is printed and the
process exits 0 — a bare `exit()` from the workflow also exits 0. -/
def cliExitCode (envValid : Bool) (repo_path : String) (repoExists repoIsDir : Bool)
    (wf : WorkflowOutcome) : Nat :=
  if !envValid then 1
  else
    match convertRepository repo_path repoExists repoIsDir wf with
    | .returned _ => 0
    | .systemExit => 0

end Tf2Avm

namespace Tf2Avm

/-! ## Terraform validation wrapper (`src/services/terraform_service.py`) -/

/-- Outcome of a `subprocess.run` invocation: a completed process with exit
code and captured streams, a `TimeoutExpired`, a `FileNotFoundError` (the
terraform binary is absent), or any other exception. -/
inductive ProcOutcome where
  | completed (returncode : Int) (stdout stderr : String)
  | timedOut (msg : String)
  | notFoundErr
  | otherError (msg : String)
  deriving Repr, DecidableEq

/-- The `range` object of a terraform diagnostic; missing or falsy values
are the empty string. -/
structure DiagRange where
  filename : String
  startLine : String
  deriving Repr, DecidableEq

/-- One entry of the `diagnostics` array of `terraform validate -json`. -/
structure Diagnostic where
  severity : String
  summary : String
  detail : Option String
  range : Option DiagRange
  deriving Repr, DecidableEq

/-- The decoded `terraform validate -json` document, as far as
`validate_terraform` inspects it: whether the (truthy) document carries an
`error_count` key, and its `diagnostics` array when present. -/
structure ValidationJson where
  hasErrorCount : Bool
  diagnostics : Option (List Diagnostic)
  deriving Repr, DecidableEq

/-- `validation_json` as stored in the result: the decoded document, or the
raw-output wrapper built when JSON decoding fails. -/
inductive VJson where
  | parsed (j : ValidationJson)
  | raw (s : String)
  deriving Repr, DecidableEq

/-- `TerraformValidationResult` dataclass. -/
structure TerraformValidationResult where
  success : Bool
  error_message : Option String
  validation_data : Option VJson
  deriving Repr, DecidableEq

/-- Environment of one `validate_terraform` call: the directory checks, the
two subprocess outcomes, and the JSON decoder for the validate stdout. -/
structure ValidateEnv where
  dirExists : Bool
  dirIsDir : Bool
  tfFiles : List String
  initRun : ProcOutcome
  validateRun : ProcOutcome
  parseJson : String → Option ValidationJson

/-- Join strings with a separator (Python `sep.join`). -/
def joinWith (sep : String) : List String → String
  | [] => ""
  | [x] => x
  | x :: y :: xs => x ++ sep ++ joinWith sep (y :: xs)

/-- The per-diagnostic error line built by `validate_terraform`:
`f"{summary}: {detail}{range_info}".strip(": ")`. -/
def diagErrorDetail (d : Diagnostic) : String :=
  let detail := d.detail.getD "Unknown error"
  let range_info :=
    match d.range with
    | some r =>
      if r.filename != "" && r.startLine != "" then
        " (" ++ r.filename ++ ":" ++ r.startLine ++ ")"
      else ""
    | none => ""
  ⟨stripColonSpace (d.summary ++ ": " ++ detail ++ range_info).data⟩

/-- Error lines extracted from the diagnostics with severity `error`. -/
def validateErrorLines (j : ValidationJson) : List String :=
  match j.diagnostics with
  | none => []
  | some ds => (ds.filter fun d => d.severity == "error").map diagErrorDetail

/-- The failure message of the `returncode ≠ 0` branch of validate. -/
def validateFailureMessage (validation_json : Option VJson) (stderr : String) : String :=
  match validation_json with
  | some (.parsed j) =>
    if j.hasErrorCount then
      let errors := validateErrorLines j
      if errors.isEmpty then "Terraform validation failed: " ++ stderr
      else
        "Terraform validation failed with " ++ Nat.repr errors.length ++ " error(s):\n"
          ++ joinWith "\n" (errors.map fun e => "  - " ++ e)
    else "Terraform validation failed: " ++ stderr
  | _ => "Terraform validation failed: " ++ stderr

/-- `TerraformService.validate_terraform`: check the directory, run
`terraform init` then `terraform validate -json`, decode the JSON output,
and return a `TerraformValidationResult`; every failure path yields
`success = false` with an error message, and every exception raised inside
the subprocess block is caught. -/
def validateTerraform (directory : String) (env : ValidateEnv) :
    TerraformValidationResult :=
  if env.dirExists = false then
    ⟨false, some ("Directory does not exist: " ++ directory), none⟩
  else if env.dirIsDir = false then
    ⟨false, some ("Path is not a directory: " ++ directory), none⟩
  else if env.tfFiles.isEmpty then
    ⟨false, some ("No .tf files found in directory: " ++ directory), none⟩
  else
    match env.initRun with
    | .timedOut m => ⟨false, some ("Terraform command timed out: " ++ m), none⟩
    | .notFoundErr =>
      ⟨false, some "Terraform CLI not found. Please ensure Terraform is installed and available in PATH.", none⟩
    | .otherError m =>
      ⟨false, some ("Unexpected error during Terraform validation: " ++ m), none⟩
    | .completed initRc _ initStderr =>
      if initRc ≠ 0 then
        ⟨false, some ("Terraform init failed: " ++ initStderr), none⟩
      else
        match env.validateRun with
        | .timedOut m => ⟨false, some ("Terraform command timed out: " ++ m), none⟩
        | .notFoundErr =>
          ⟨false, some "Terraform CLI not found. Please ensure Terraform is installed and available in PATH.", none⟩
        | .otherError m =>
          ⟨false, some ("Unexpected error during Terraform validation: " ++ m), none⟩
        | .completed valRc valStdout valStderr =>
          let validation_json : Option VJson :=
            if valStdout = "" then none
            else
              match env.parseJson valStdout with
              | some j => some (VJson.parsed j)
              | none => some (VJson.raw valStdout)
          if valRc ≠ 0 then
            ⟨false, some (validateFailureMessage validation_json valStderr), validation_json⟩
          else
            ⟨true, none, validation_json⟩

end Tf2Avm

namespace Tf2Avm

/-- `claim C5` counterexample — the claim states the fallback plan's
transformation action is manual-review, but on a planner response with no
parsable JSON the code returns a fallback whose transformation action is
the string `convert_to_module`. -/
theorem claim_C5_fallback_counterexample :
    (createConversionPlan (fun _ => none)
        ⟨"main.tf", ⟨"azurerm_key_vault", "kv", "main.tf"⟩, none, "None"⟩
        "main.tf" "not a json response").conversion_plan.transformation_action =
      "convert_to_module" ∧
    (createConversionPlan (fun _ => none)
        ⟨"main.tf", ⟨"azurerm_key_vault", "kv", "main.tf"⟩, none, "None"⟩
        "main.tf" "not a json response").conversion_plan.transformation_action ≠
      "manual-review" ∧
    (createConversionPlan (fun _ => none)
        ⟨"main.tf", ⟨"azurerm_key_vault", "kv", "main.tf"⟩, none, "None"⟩
        "main.tf" "not a json response").conversion_plan.transformation_action ≠
      "manual_review" := by
  refine ⟨rfl, ?_, ?_⟩ <;> decide

/-- `claim C5` (amended) — whenever the planner response fails JSON
extraction, decoding, or schema construction, the loop returns the
synthesized fallback plan: transformation action `convert_to_module` (not
manual-review), risk level High with a risk note demanding manual review,
the raw response text carried verbatim as the markdown plan, and a
non-empty warning list; the embedded parser is total, so no exception
escapes for that resource. -/
theorem claim_C5_fallback_behaviour (parse : String → Option ParsedResponse)
    (rm : ResourceMapping) (filename response_text : String)
    (hfail : planningResponseFails parse response_text = true) :
    createConversionPlan parse rm filename response_text =
      createFallbackResult rm filename response_text ∧
    (createConversionPlan parse rm filename
        response_text).conversion_plan.transformation_action = "convert_to_module" ∧
    (createConversionPlan parse rm filename
        response_text).conversion_plan.risk_level = "High" ∧
    (createConversionPlan parse rm filename response_text).conversion_plan.risk_notes =
      "Fallback result due to parsing error - manual review required" ∧
    (createConversionPlan parse rm filename response_text).markdown_plan = response_text ∧
    (createConversionPlan parse rm filename response_text).warnings =
      ["Failed to parse structured output from agent - using fallback"] := by
  have h : createConversionPlan parse rm filename response_text =
      createFallbackResult rm filename response_text := by
    cases hf : findCharIdx '\x7b' response_text.data with
    | none => simp only [createConversionPlan, hf]
    | some json_start =>
      cases hr : rfindCharIdx '\x7d' response_text.data with
      | none =>
        simp only [createConversionPlan, hf, hr]
        rw [if_neg (by omega)]
      | some i =>
        simp only [planningResponseFails, hf, hr] at hfail
        simp only [createConversionPlan, hf, hr]
        by_cases hlt : json_start < i + 1
        · rw [if_pos hlt] at hfail ⊢
          cases hp : parse ⟨sliceChars response_text.data json_start (i + 1)⟩ with
          | none => simp only [hp]
          | some pd =>
            rw [hp] at hfail
            simp [Option.isNone] at hfail
        · rw [if_neg hlt]
  rw [h]
  exact ⟨rfl, rfl, rfl, rfl, rfl, rfl⟩

/-- Witness for `claim C5`: the fallback theorem applied to a concrete
unparsable planner response. -/
theorem claim_C5_fallback_behaviour_witness :
    createConversionPlan (fun _ => none)
        ⟨"kv.tf", ⟨"azurerm_key_vault", "kv", "kv.tf"⟩, some ⟨"avm-res-keyvault-vault", "0.9.1"⟩, "High"⟩
        "kv.tf" "no structured output" =
      createFallbackResult
        ⟨"kv.tf", ⟨"azurerm_key_vault", "kv", "kv.tf"⟩, some ⟨"avm-res-keyvault-vault", "0.9.1"⟩, "High"⟩
        "kv.tf" "no structured output" ∧
    (createConversionPlan (fun _ => none)
        ⟨"kv.tf", ⟨"azurerm_key_vault", "kv", "kv.tf"⟩, some ⟨"avm-res-keyvault-vault", "0.9.1"⟩, "High"⟩
        "kv.tf" "no structured output").conversion_plan.risk_level = "High" ∧
    (createConversionPlan (fun _ => none)
        ⟨"kv.tf", ⟨"azurerm_key_vault", "kv", "kv.tf"⟩, some ⟨"avm-res-keyvault-vault", "0.9.1"⟩, "High"⟩
        "kv.tf" "no structured output").warnings ≠ [] := by
  have h := claim_C5_fallback_behaviour (fun _ => none)
    ⟨"kv.tf", ⟨"azurerm_key_vault", "kv", "kv.tf"⟩, some ⟨"avm-res-keyvault-vault", "0.9.1"⟩, "High"⟩
    "kv.tf" "no structured output" (by decide)
  refine ⟨h.1, h.2.2.1, ?_⟩
  rw [h.2.2.2.2.2]
  decide

end Tf2Avm

namespace Tf2Avm

/-- `claim C6` — the mapping-review pass is invoked iff the number of
mappings with a non-null target module after the first detail enrichment is
strictly below the total number of mappings; when invoked it runs exactly
once and is followed by exactly one re-enrichment pass. -/
theorem claim_C6_mapping_review_single_retry
    (review : List ResourceMapping → List ResourceMapping) (ms : List ResourceMapping) :
    ((mappingPhase review ms).reviewInvocations = 1 ↔
      (validMappings ms).length < ms.length) ∧
    (mappingPhase review ms).reviewInvocations ≤ 1 ∧
    (mappingPhase review ms).events.count WfEvent.mappingReview =
      (mappingPhase review ms).reviewInvocations ∧
    ((validMappings ms).length < ms.length →
      (mappingPhase review ms).events =
        [WfEvent.detailEnrichment, WfEvent.mappingReview, WfEvent.detailEnrichment] ∧
      (mappingPhase review ms).finalMappings = review ms) ∧
    (¬ (validMappings ms).length < ms.length →
      (mappingPhase review ms).events = [WfEvent.detailEnrichment, WfEvent.detailEnrichment] ∧
      (mappingPhase review ms).finalMappings = ms) := by
  unfold mappingPhase
  by_cases h : (validMappings ms).length < ms.length
  · simp [h, List.count_cons]
  · simp [h, List.count_cons]

/-- Witness for `claim C6`: with one unmapped resource the trace contains
exactly one review between the two enrichment passes; with every resource
mapped the review pass is absent. -/
theorem claim_C6_mapping_review_single_retry_witness :
    (mappingPhase (fun ms => ms)
        [⟨"a.tf", ⟨"azurerm_storage_account", "sa", "a.tf"⟩, none, "None"⟩]).events =
      [WfEvent.detailEnrichment, WfEvent.mappingReview, WfEvent.detailEnrichment] ∧
    (mappingPhase (fun ms => ms)
        [⟨"a.tf", ⟨"azurerm_storage_account", "sa", "a.tf"⟩,
          some ⟨"avm-res-storage-storageaccount", "0.6.3"⟩, "High"⟩]).events =
      [WfEvent.detailEnrichment, WfEvent.detailEnrichment] := by
  have h1 := (claim_C6_mapping_review_single_retry (fun ms => ms)
    [⟨"a.tf", ⟨"azurerm_storage_account", "sa", "a.tf"⟩, none, "None"⟩]).2.2.2.1 (by decide)
  have h2 := (claim_C6_mapping_review_single_retry (fun ms => ms)
    [⟨"a.tf", ⟨"azurerm_storage_account", "sa", "a.tf"⟩,
      some ⟨"avm-res-storage-storageaccount", "0.6.3"⟩, "High"⟩]).2.2.2.2 (by decide)
  exact ⟨h1.1, h2.1⟩

/-- Every planning record falls in exactly one of the three summary
categories: converted, skipped-with-reason, manual-review. -/
theorem planRecord_partition (rec : PlanRecord) :
    (rec.isConverted).toNat + (rec.isSkipped).toNat + (rec.isManualReview).toNat = 1 := by
  cases rec with
  | planned r =>
    cases hb : r.conversion_plan.transformation_action == "manual_review" <;>
      simp [PlanRecord.isConverted, PlanRecord.isSkipped, PlanRecord.isManualReview, hb]
  | skippedNoMapping t n => rfl
  | skippedNoDetail t n => rfl
  | skippedNoFile t n => rfl
  | skippedNoMetadata t n => rfl

/-- Three pairwise-exclusive, jointly-exhaustive boolean categories make
their counts sum to the list length. -/
theorem countP_partition {β : Type} (p q r : β → Bool)
    (h : ∀ x : β, (p x).toNat + (q x).toNat + (r x).toNat = 1) :
    ∀ l : List β, l.countP p + l.countP q + l.countP r = l.length := by
  intro l
  induction l with
  | nil => simp
  | cons a l ih =>
    have ha := h a
    simp only [List.countP_cons, List.length_cons]
    cases hp : p a <;> cases hq : q a <;> cases hr : r a <;>
      simp [hp, hq, hr, Bool.toNat] at ha ⊢ <;> omega

/-- `claim C7` — every input resource mapping contributes exactly one record
to the accumulated planning output (a plan or one of the four
skipped-with-reason messages), each record belongs to exactly one of
{converted, skipped-with-reason, manual-review}, and the category counts
sum to the total number of mappings. -/
theorem claim_C7_resource_accounting (parse : String → Option ParsedResponse)
    (respond : ResourceMapping → ModuleDetailResult → String × String → List String → String)
    (tf_files : List (String × String))
    (metas : List TerraformResourceMeta)
    (modules_details : List ModuleDetailResult)
    (ms : List ResourceMapping) :
    (planningLoop parse respond tf_files metas modules_details ms).length = ms.length ∧
    (planningLoop parse respond tf_files metas modules_details ms).countP
        PlanRecord.isConverted +
      (planningLoop parse respond tf_files metas modules_details ms).countP
        PlanRecord.isSkipped +
      (planningLoop parse respond tf_files metas modules_details ms).countP
        PlanRecord.isManualReview = ms.length ∧
    ∀ rec : PlanRecord,
      (rec.isConverted).toNat + (rec.isSkipped).toNat + (rec.isManualReview).toNat = 1 := by
  refine ⟨by simp [planningLoop], ?_, planRecord_partition⟩
  rw [countP_partition PlanRecord.isConverted PlanRecord.isSkipped PlanRecord.isManualReview
    planRecord_partition]
  simp [planningLoop]

/-- `claim C8` counterexample — an invalid repository path does not produce
a non-zero exit code: the `FileNotFoundError` is caught inside
`convert_repository`, a `failed` status is returned, and the CLI exits 0. -/
theorem claim_C8_invalid_path_counterexample :
    convertRepository "missing_repo" false true (WorkflowOutcome.completes "done") =
      RunOutcome.returned ⟨"failed",
        some "Repository path 'missing_repo' does not exist or is not a directory."⟩ ∧
    cliExitCode true "missing_repo" false true (WorkflowOutcome.completes "done") = 0 ∧
    ¬ cliExitCode true "missing_repo" false true (WorkflowOutcome.completes "done") ≠ 0 := by
  refine ⟨by decide, rfl, ?_⟩
  intro h
  exact h rfl

/-- `claim C8` (amended) — the CLI exits 0 whenever initialization succeeds,
whatever the pipeline does (completion, caught stage failure, or the bare
process exit), so a non-zero exit occurs only when environment validation
fails during initialization; an invalid repository path aborts before any
stage runs but is reported as a returned `failed` status with exit code 0. -/
theorem claim_C8_exit_code_behaviour (envValid repoExists repoIsDir : Bool)
    (repo_path : String) (wf : WorkflowOutcome) :
    (envValid = true → cliExitCode envValid repo_path repoExists repoIsDir wf = 0) ∧
    (cliExitCode envValid repo_path repoExists repoIsDir wf ≠ 0 → envValid = false) ∧
    ((repoExists && repoIsDir) = false →
      convertRepository repo_path repoExists repoIsDir wf =
        RunOutcome.returned ⟨"failed",
          some ("Repository path '" ++ repo_path ++ "' does not exist or is not a directory.")⟩) := by
  refine ⟨?_, ?_, ?_⟩
  · intro h
    subst h
    unfold cliExitCode
    simp only [Bool.not_true, if_neg (by decide : ¬ (false = true))]
    cases convertRepository repo_path repoExists repoIsDir wf <;> rfl
  · intro h
    cases he : envValid with
    | true =>
      exfalso
      apply h
      unfold cliExitCode
      simp only [he, Bool.not_true, if_neg (by decide : ¬ (false = true))]
      cases convertRepository repo_path repoExists repoIsDir wf <;> rfl
    | false => rfl
  · intro h
    unfold convertRepository
    rw [h]
    rfl

/-- Witness for `claim C8`: the amended exit-code theorem applied to a
concrete invalid-path invocation with valid environment. -/
theorem claim_C8_exit_code_behaviour_witness :
    cliExitCode true "repo" false true (WorkflowOutcome.completes "ok") = 0 ∧
    convertRepository "repo" false true (WorkflowOutcome.completes "ok") =
      RunOutcome.returned ⟨"failed",
        some "Repository path 'repo' does not exist or is not a directory."⟩ := by
  have h := claim_C8_exit_code_behaviour true false true "repo" (WorkflowOutcome.completes "ok")
  exact ⟨h.1 rfl, h.2.2 (by decide)⟩

end Tf2Avm

namespace Tf2Avm

theorem stringLengthAppend (s t : String) : (s ++ t).length = s.length + t.length := by
  cases s with
  | mk d =>
    cases t with
    | mk e =>
      show (String.mk (d ++ e)).length = (String.mk d).length + (String.mk e).length
      simp [String.length]

theorem prefix_append_ne_zero (s t : String) (h : s.length ≠ 0) : (s ++ t).length ≠ 0 := by
  rw [stringLengthAppend]
  omega

/-- A failure-shaped result satisfies both directions of the validation
contract (the success direction vacuously). -/
theorem failureBranch (m : String) (vd : Option VJson) (P : Prop) (hm : m.length ≠ 0) :
    ((⟨false, some m, vd⟩ : TerraformValidationResult).success = false →
      ∃ m2, (⟨false, some m, vd⟩ : TerraformValidationResult).error_message = some m2 ∧
        m2.length ≠ 0) ∧
    ((⟨false, some m, vd⟩ : TerraformValidationResult).success = true → P) :=
  ⟨fun _ => ⟨m, rfl, hm⟩, fun h => (Bool.false_ne_true h).elim⟩

/-- The validate-failure message is never empty in any of its branches. -/
theorem validateFailureMessage_ne_zero (vj : Option VJson) (stderr : String) :
    (validateFailureMessage vj stderr).length ≠ 0 := by
  unfold validateFailureMessage
  cases vj with
  | none => exact prefix_append_ne_zero _ _ (by decide)
  | some v =>
    cases v with
    | raw s => exact prefix_append_ne_zero _ _ (by decide)
    | parsed j =>
      by_cases hc : j.hasErrorCount = true
      · simp only [hc, if_true]
        by_cases he : (validateErrorLines j).isEmpty = true
        · simp only [he, if_true]
          exact prefix_append_ne_zero _ _ (by decide)
        · simp only [he, if_false]
          exact prefix_append_ne_zero _ _
            (prefix_append_ne_zero _ _ (prefix_append_ne_zero _ _ (by decide)))
      · simp only [hc, if_false]
        exact prefix_append_ne_zero _ _ (by decide)

/-- `claim C10` — `validate_terraform` is total: for every directory state,
subprocess outcome and decoder behaviour it returns a
`TerraformValidationResult`; every failure path carries `success = false`
with a non-empty error message, and `success = true` only when both
`terraform init` and `terraform validate` exit with code 0 (with no error
message). -/
theorem claim_C10_validate_total (directory : String) (env : ValidateEnv) :
    ((validateTerraform directory env).success = false →
      ∃ m, (validateTerraform directory env).error_message = some m ∧ m.length ≠ 0) ∧
    ((validateTerraform directory env).success = true →
      (validateTerraform directory env).error_message = none ∧
      (∃ vout verr, env.validateRun = ProcOutcome.completed 0 vout verr) ∧
      (∃ iout ierr, env.initRun = ProcOutcome.completed 0 iout ierr)) := by
  obtain ⟨dirEx, dirDir, tfs, initR, valR, pj⟩ := env
  unfold validateTerraform
  cases dirEx with
  | false => exact failureBranch _ _ _ (prefix_append_ne_zero _ _ (by decide))
  | true =>
    cases dirDir with
    | false => exact failureBranch _ _ _ (prefix_append_ne_zero _ _ (by decide))
    | true =>
      cases tfs with
      | nil => exact failureBranch _ _ _ (prefix_append_ne_zero _ _ (by decide))
      | cons f fs =>
        cases initR with
        | timedOut m => exact failureBranch _ _ _ (prefix_append_ne_zero _ _ (by decide))
        | notFoundErr => exact failureBranch _ _ _ (by decide)
        | otherError m => exact failureBranch _ _ _ (prefix_append_ne_zero _ _ (by decide))
        | completed irc iout ierr =>
          by_cases hirc : irc ≠ 0
          · simp only [if_pos hirc]
            exact failureBranch _ _ _ (prefix_append_ne_zero _ _ (by decide))
          · simp only [if_neg hirc]
            have hirc0 : irc = 0 := by omega
            subst hirc0
            cases valR with
            | timedOut m =>
              exact failureBranch _ _ _ (prefix_append_ne_zero _ _ (by decide))
            | notFoundErr => exact failureBranch _ _ _ (by decide)
            | otherError m =>
              exact failureBranch _ _ _ (prefix_append_ne_zero _ _ (by decide))
            | completed vrc vout verr =>
              by_cases hvrc : vrc ≠ 0
              · simp only [if_pos hvrc]
                exact failureBranch _ _ _ (validateFailureMessage_ne_zero _ _)
              · simp only [if_neg hvrc]
                have hvrc0 : vrc = 0 := by omega
                subst hvrc0
                constructor
                · intro h
                  simp at h
                · intro _
                  exact ⟨rfl, ⟨vout, verr, rfl⟩, ⟨iout, ierr, rfl⟩⟩

/-- Witness for `claim C10`: the totality theorem applied to a concrete
environment in which the terraform binary is missing, and to a concrete
fully-successful environment. -/
theorem claim_C10_validate_total_witness :
    (∃ m, (validateTerraform "work"
        ⟨true, true, ["main.tf"], ProcOutcome.notFoundErr, ProcOutcome.notFoundErr,
          fun _ => none⟩).error_message = some m ∧ m.length ≠ 0) ∧
    (validateTerraform "work"
        ⟨true, true, ["main.tf"], ProcOutcome.completed 0 "" "",
          ProcOutcome.completed 0 "" "", fun _ => none⟩).error_message = none := by
  have h1 := (claim_C10_validate_total "work"
    ⟨true, true, ["main.tf"], ProcOutcome.notFoundErr, ProcOutcome.notFoundErr,
      fun _ => none⟩).1 (by decide)
  have h2 := (claim_C10_validate_total "work"
    ⟨true, true, ["main.tf"], ProcOutcome.completed 0 "" "",
      ProcOutcome.completed 0 "" "", fun _ => none⟩).2 (by decide)
  exact ⟨h1, h2.1⟩

end Tf2Avm
